import Mathlib

/-!
Verification of the gitx workspace engine against its specification.

Shallow embedding of the Python sources:
- `cli/gitx/workspace/paths.py` (RepoIdentifier, branch_to_suffix, repo_root_path,
  workspace_path)
- `src/gitx.py` (parse_repo_path, the legacy generation)
- `cli/gitx/clone.py` (build_clone_url, build_clone_paths, run_gitx_clone)
- `cli/gitx/config.py` (VALID_PATHS, load_raw_config, save_config_value)
- `cli/gitx/workspace/commands.py` (workspace_add, workspace_go, _iter_worktrees,
  workspace_list)

Python string primitives are embedded on `List Char`, specialised to the constant
pattern arguments the source passes them, so every definition is structurally
recursive and evaluates in the kernel.  External git processes are modelled by an
environment `GitEnv` assigning a return code to each possible invocation; each
workflow returns its exit code together with the trace of git operations it ran.
-/

set_option autoImplicit false

namespace Gitx

/-! ## Python string primitives (specialised, structural) -/

/-- Python `s.replace(a, b)` for single-character `a`, `b`
(`cleaned.replace(":", "/")` in `parse_repo_path`, `branch.replace("/", "-")`
in `branch_to_suffix`): single-character replacement is a character-wise map. -/
def replaceChar (a b : Char) : List Char → List Char
  | [] => []
  | c :: rest => (if c = a then b else c) :: replaceChar a b rest

/-- Python `repo_url.replace("git@", "https://")` from `parse_repo_path`,
specialised to its constant arguments. -/
def replaceGitAtHttps : List Char → List Char
  | 'g' :: 'i' :: 't' :: '@' :: rest => "https://".toList ++ replaceGitAtHttps rest
  | c :: rest => c :: replaceGitAtHttps rest
  | [] => []

/-- Python `s.rstrip(chars)`: removes trailing characters drawn from the
character SET `chars` (this is how `rstrip(".git")` behaves: it strips any run
of `.`, `g`, `i`, `t` from the end, not the literal suffix `.git`). -/
def pyRstrip (s : List Char) (chars : List Char) : List Char :=
  (s.reverse.dropWhile (fun c => chars.contains c)).reverse

/-- Python `"github.com" in cleaned` from `parse_repo_path`, specialised to the
constant needle. -/
def hasGithubCom : List Char → Bool
  | 'g' :: 'i' :: 't' :: 'h' :: 'u' :: 'b' :: '.' :: 'c' :: 'o' :: 'm' :: _ => true
  | _ :: rest => hasGithubCom rest
  | [] => false

/-- Python `cleaned.split("github.com/")` from `parse_repo_path`, specialised to
the constant separator. -/
def splitGithubComSlash : List Char → List (List Char)
  | 'g' :: 'i' :: 't' :: 'h' :: 'u' :: 'b' :: '.' :: 'c' :: 'o' :: 'm' :: '/' :: rest =>
      [] :: splitGithubComSlash rest
  | c :: rest =>
      match splitGithubComSlash rest with
      | [] => [[c]]
      | h :: t => (c :: h) :: t
  | [] => [[]]

/-- Python `s.split(sep)` for a single-character separator (`seg.split("/")`,
`path.split(".")`).  Like Python, always yields at least one piece and keeps
empty pieces. -/
def splitOnChar (sep : Char) : List Char → List (List Char)
  | [] => [[]]
  | c :: rest =>
      if c = sep then [] :: splitOnChar sep rest
      else
        match splitOnChar sep rest with
        | [] => [[c]]
        | h :: t => (c :: h) :: t

/-- Python `s.split(sep, 1)` for a single-character separator, returning the
two pieces around the first occurrence, or `none` when the separator is absent
(in the sources this case is guarded by `if sep not in s`, raising
`ValueError`). -/
def splitFirstChar (sep : Char) : List Char → Option (List Char × List Char)
  | [] => none
  | c :: cs =>
      if c = sep then some ([], cs)
      else (splitFirstChar sep cs).map (fun p => (c :: p.1, p.2))

/-- Python `s.strip()`: drop whitespace from both ends. -/
def pyStrip (l : List Char) : List Char :=
  ((l.dropWhile (fun c => c.isWhitespace)).reverse.dropWhile
    (fun c => c.isWhitespace)).reverse

/-- Python `s.lower()`. -/
def pyLower (l : List Char) : List Char := l.map Char.toLower

/-! ## Filesystem paths

`pathlib.Path` values are modelled as their list of segments; `p / seg`
appends a segment. -/

abbrev Path := List String

/-! ## `workspace/paths.py` -/

/-- `RepoIdentifier` dataclass from `workspace/paths.py`. -/
structure RepoIdentifier where
  org : String
  name : String
deriving DecidableEq, Repr

/-- `RepoIdentifier.parse`: raises `ValueError` (here `none`) when `"/"` is not
in the input; otherwise `org, name = value.split("/", 1)`. -/
def RepoIdentifier.parse (value : String) : Option RepoIdentifier :=
  match splitFirstChar '/' value.toList with
  | none => none
  | some (o, n) => some ⟨String.mk o, String.mk n⟩

/-- `WORKSPACE_SUFFIX_SEP` from `workspace/__init__.py`. -/
def WORKSPACE_SUFFIX_SEP : String := "-"

/-- `branch_to_suffix`: `branch.replace("/", WORKSPACE_SUFFIX_SEP)` with the
separator `"-"`; single-character replace embedded by `replaceChar`. -/
def branch_to_suffix (branch : String) : String :=
  String.mk (replaceChar '/' '-' branch.toList)

/-! The workflow code reads `cfg.workspaces.base_dir`, `cfg.workspaces.provider`
and `cfg.globals.editor`; the embedding mirrors exactly those attribute
accesses.  (The dataclass `AppConfig` in `config.py` has drifted from this
shape — its `workspaces` field is a dict — but the claims' cited workflows are
written against the attributes modelled here.) -/

structure WorkspacesSettings where
  base_dir : Path
  provider : String
deriving DecidableEq, Repr

structure GlobalsSettings where
  editor : String
deriving DecidableEq, Repr

structure AppConfig where
  workspaces : WorkspacesSettings
  globals : GlobalsSettings
deriving DecidableEq, Repr

/-- `repo_root_path`: `cfg.workspaces.base_dir / repo.org / repo.name`. -/
def repo_root_path (repo : RepoIdentifier) (cfg : AppConfig) : Path :=
  cfg.workspaces.base_dir ++ [repo.org, repo.name]

/-- `workspace_path`:
`cfg.workspaces.base_dir / repo.org / repo.name / f"{repo.name}{SEP}{suffix}"`. -/
def workspace_path (repo : RepoIdentifier) (branch : String) (cfg : AppConfig) : Path :=
  cfg.workspaces.base_dir ++
    [repo.org, repo.name, repo.name ++ WORKSPACE_SUFFIX_SEP ++ branch_to_suffix branch]

/-! ## `src/gitx.py` — legacy URL parsing -/

/-- The fallback tail of `parse_repo_path`:
`name = repo_url.rstrip("/").split("/")[-1].rstrip(".git")`,
returning `Path("unknown") / name`. -/
def parse_repo_path_fallback (repo_url : String) : Path :=
  let base := pyRstrip repo_url.toList ['/']
  let parts := splitOnChar '/' base
  ["unknown", String.mk (pyRstrip (parts.getLastD []) ".git".toList)]

/-- `parse_repo_path` from `src/gitx.py`:
replace `"git@"` with `"https://"`, replace `":"` with `"/"`, `rstrip(".git")`;
if `"github.com"` occurs, take `cleaned.split("github.com/")[1]` (an
`IndexError`, modelled `none`, if that piece is missing) and split it on `"/"`;
with two or more pieces the first two are the path, otherwise fall back. -/
def parse_repo_path (repo_url : String) : Option Path :=
  let cleaned := replaceGitAtHttps repo_url.toList
  let cleaned := replaceChar ':' '/' cleaned
  let cleaned := pyRstrip cleaned ".git".toList
  if hasGithubCom cleaned then
    match (splitGithubComSlash cleaned).get? 1 with
    | none => none
    | some seg =>
        match splitOnChar '/' seg with
        | p0 :: p1 :: _ => some [String.mk p0, String.mk p1]
        | _ => some (parse_repo_path_fallback repo_url)
  else some (parse_repo_path_fallback repo_url)

/-! ## `config.py` — the ConfigStore

JSON documents are modelled by `Json`; objects are association lists in
insertion order with distinct keys, exactly the observable behaviour of a
Python `dict` produced by `json.loads`. -/

inductive Json where
  | str : String → Json
  | num : Int → Json
  | boolVal : Bool → Json
  | null : Json
  | obj : List (String × Json) → Json

abbrev Jdict := List (String × Json)

/-- Python `d[k]` / `d.get(k)`. -/
def dictLookup (k : String) : Jdict → Option Json
  | [] => none
  | (k', v) :: rest => if k' = k then some v else dictLookup k rest

/-- Python `d[k] = v`: overwrite in place if the key is present (keeping its
position), otherwise append. -/
def dictSet (k : String) (v : Json) : Jdict → Jdict
  | [] => [(k, v)]
  | (k', v') :: rest => if k' = k then (k', v) :: rest else (k', v') :: dictSet k v rest

/-- Python `dst.update(src)`. -/
def dictUpdate (dst src : Jdict) : Jdict :=
  src.foldl (fun d kv => dictSet kv.1 kv.2 d) dst

/-- `DEFAULT_CONFIG` from `config.py`. -/
def DEFAULT_CONFIG : Jdict :=
  [("globals", Json.obj
      [("baseDir", Json.str "${HOME}/sources/workspaces"),
       ("defaultProvider", Json.str "github"),
       ("editor", Json.str "code")]),
   ("workspaces", Json.obj [])]

/-- One iteration of the merge loop in `load_raw_config`:
`section = merged.setdefault(key, {}); if isinstance(section, dict):
section.update(value)` for dict values, `merged[key] = value` otherwise.
(The Python mutates the dicts in place through a shallow `DEFAULT_CONFIG.copy()`;
per call the resulting document is the one computed here.) -/
def mergeStep (merged : Jdict) (kv : String × Json) : Jdict :=
  match kv.2 with
  | Json.obj o =>
      match dictLookup kv.1 merged with
      | none => dictSet kv.1 (Json.obj (dictUpdate [] o)) merged
      | some (Json.obj s) => dictSet kv.1 (Json.obj (dictUpdate s o)) merged
      | some _ => merged
  | v => dictSet kv.1 v merged

/-- The merge of on-disk data over the defaults (`load_raw_config`, happy
path). -/
def mergeData (data : Jdict) : Jdict :=
  data.foldl mergeStep DEFAULT_CONFIG

/-- The three states the config file on disk can be in, as distinguished by
`load_raw_config`: missing, present but not valid JSON, or parsed data. -/
inductive DiskConfig where
  | absent
  | unparsable
  | parsed (data : Jdict)

/-- `load_raw_config`: missing file → defaults; `json.JSONDecodeError` →
log `"Invalid JSON in config file ... using defaults"` and return defaults;
otherwise merge the parsed data over the defaults. -/
def load_raw_config : DiskConfig → Jdict
  | DiskConfig.absent => DEFAULT_CONFIG
  | DiskConfig.unparsable => DEFAULT_CONFIG
  | DiskConfig.parsed data => mergeData data

/-- `_is_valid_config_path`: `re.fullmatch` of the dot-path against the
patterns in `VALID_PATHS`.  The three `globals` patterns are literals (their
dots escaped), so full-matching them is string equality; a string fully
matches `workspaces\.[^.]+\.defaultBranch` exactly when splitting it on `.`
yields `["workspaces", id, "defaultBranch"]` with `id` non-empty (the `[^.]+`
group can contain no dot, so the split has exactly three pieces). -/
def _is_valid_config_path (path : String) : Bool :=
  path == "globals.baseDir" || path == "globals.defaultProvider" ||
  path == "globals.editor" ||
  (match splitOnChar '.' path.toList with
   | [w, id, d] =>
       w == "workspaces".toList && !id.isEmpty && d == "defaultBranch".toList
   | _ => false)

/-- The write-back loop of `save_config_value`: walk the dotted path,
`section.setdefault(segment, {})` at each intermediate segment (raising
`ValueError`, here `none`, when an intermediate value is not a dict), then set
the leaf. -/
def setPath (doc : Jdict) (parts : List String) (value : Json) : Option Jdict :=
  match parts with
  | [] => some doc
  | [last] => some (dictSet last value doc)
  | seg :: rest =>
      match dictLookup seg doc with
      | none => (setPath [] rest value).map (fun sub => dictSet seg (Json.obj sub) doc)
      | some (Json.obj s) =>
          (setPath s rest value).map (fun sub => dictSet seg (Json.obj sub) doc)
      | some _ => none

/-- `save_config_value path value`: reject (`ValueError`, "Unsupported config
key", here `none`) unless the path matches the allow-list; otherwise reload the
raw config, write `value` at the dotted path and serialise the whole document
(the returned `Jdict` is what gets written to disk). -/
def save_config_value (path value : String) (disk : DiskConfig) : Option Jdict :=
  if _is_valid_config_path path then
    setPath (load_raw_config disk)
      ((splitOnChar '.' path.toList).map String.mk) (Json.str value)
  else none

/-! ## Git process adapter

Every `subprocess.run(["git", ...])` the workflows can issue, as a trace
element, and an environment `GitEnv` assigning each invocation its return
code (and the worktree listing its captured stdout). -/

inductive GitOp where
  | cloneOp (url : String) (dest : Path)
  | detachOp
  | worktreeAddOp (path : Path) (branch : String)
  | fetchAllOp
  | showRefLocalOp (branch : String)
  | showRefRemoteOp (branch : String)
  | checkoutBOp (branch : String)
  | pushUpstreamOp (branch : String)
  | worktreeListOp
deriving DecidableEq, Repr, Inhabited

/-- The state of the outside world a single command runs against: which
paths exist, what each git invocation exits with, what the worktree listing
prints, and what the user types at the interactive prompt (`none` models
`EOFError`). -/
structure GitEnv where
  repoRootExists : Bool
  wsPathExists : Bool
  cloneRet : Int
  detachRet : Int
  worktreeAddRet : Int
  fetchRet : Int
  showRefLocalRet : Int
  showRefRemoteRet : Int
  checkoutBRet : Int
  pushRet : Int
  worktreeListRet : Int
  worktreeListOut : List String
  promptAnswer : Option String
deriving DecidableEq, Repr

/-- The return code the environment assigns to a git invocation. -/
def GitEnv.retOf (env : GitEnv) : GitOp → Int
  | GitOp.cloneOp _ _ => env.cloneRet
  | GitOp.detachOp => env.detachRet
  | GitOp.worktreeAddOp _ _ => env.worktreeAddRet
  | GitOp.fetchAllOp => env.fetchRet
  | GitOp.showRefLocalOp _ => env.showRefLocalRet
  | GitOp.showRefRemoteOp _ => env.showRefRemoteRet
  | GitOp.checkoutBOp _ => env.checkoutBRet
  | GitOp.pushUpstreamOp _ => env.pushRet
  | GitOp.worktreeListOp => env.worktreeListRet

/-- The mutating operations named by the failure-semantics contract: clone,
checkout --detach, worktree add, branch create, push.  `fetch` and the
captured `show-ref` / `worktree list` queries are not mutating. -/
def GitOp.isMutating : GitOp → Bool
  | GitOp.cloneOp _ _ => true
  | GitOp.detachOp => true
  | GitOp.worktreeAddOp _ _ => true
  | GitOp.checkoutBOp _ => true
  | GitOp.pushUpstreamOp _ => true
  | _ => false

/-! ## `clone.py` -/

/-- `_is_full_git_url`. -/
def _is_full_git_url (target : String) : Bool :=
  "https://".toList.isPrefixOf target.toList ||
  "git://".toList.isPrefixOf target.toList ||
  "git@".toList.isPrefixOf target.toList

/-- `build_clone_url`: full URLs pass through; otherwise require a `/`
(`ValueError`, `none`), split once, and build the GitHub HTTPS URL; unknown
providers raise (`none`). -/
def build_clone_url (target provider : String) : Option String :=
  if _is_full_git_url target then some target
  else
    match splitFirstChar '/' target.toList with
    | none => none
    | some (o, r) =>
        if provider = "github" then
          some ("https://github.com/" ++ String.mk o ++ "/" ++ String.mk r ++ ".git")
        else none

/-- `build_clone_paths`: `repo_root = base_dir / org / repo`;
`main_worktree = base_dir / org / f"{repo}-main"` — the main worktree is a
SIBLING of the repo root, not nested inside it. -/
def build_clone_paths (target : String) (cfg : AppConfig) : Option (Path × Path) :=
  match splitFirstChar '/' target.toList with
  | none => none
  | some (o, r) =>
      some (cfg.workspaces.base_dir ++ [String.mk o, String.mk r],
            cfg.workspaces.base_dir ++ [String.mk o, String.mk r ++ "-main"])

/-- Result of `run_gitx_clone`: exit code, trace of git operations, the path
reported in the final "Workspace created" panel (when reached), and the
persisted configuration afterwards.  `run_gitx_clone` contains no config
write, so the persisted document is threaded through unchanged. -/
structure CloneOutcome where
  exit : Int
  ops : List GitOp
  reported : Option Path
  persisted : Jdict

/-- `run_gitx_clone`: build URL and paths (exceptions → `none`), make the
parent directory, fail with exit 1 if the repo root already exists, then
`git clone` → `git checkout --detach` → `git worktree add <sibling> main`,
returning the first non-zero return code, else 0 with the reported path. -/
def run_gitx_clone (target : String) (cfg : AppConfig) (env : GitEnv)
    (persisted : Jdict) : Option CloneOutcome :=
  match build_clone_url target cfg.workspaces.provider with
  | none => none
  | some url =>
  match build_clone_paths target cfg with
  | none => none
  | some (repo_root, main_worktree) =>
      if env.repoRootExists then some ⟨1, [], none, persisted⟩
      else
        let ops := [GitOp.cloneOp url repo_root]
        if env.cloneRet ≠ 0 then some ⟨env.cloneRet, ops, none, persisted⟩
        else
          let ops := ops ++ [GitOp.detachOp]
          if env.detachRet ≠ 0 then some ⟨env.detachRet, ops, none, persisted⟩
          else
            let ops := ops ++ [GitOp.worktreeAddOp main_worktree "main"]
            if env.worktreeAddRet ≠ 0 then
              some ⟨env.worktreeAddRet, ops, none, persisted⟩
            else some ⟨0, ops, some main_worktree, persisted⟩

/-! ## `workspace/commands.py` -/

/-- Result of `workspace_add`: exit code and trace. -/
structure CmdOutcome where
  exit : Int
  ops : List GitOp
deriving DecidableEq, Repr

/-- `answer = input().strip().lower()` with `EOFError → ""`. -/
def normalized_answer (env : GitEnv) : String :=
  match env.promptAnswer with
  | none => ""
  | some s => String.mk (pyLower (pyStrip s.toList))

/-- `workspace_add`: parse the repo (exception → `none`); exit 1 if the repo
root is missing; `git fetch --all` (non-zero propagates); `_branch_exists` —
a captured local `show-ref`, and a remote one only when the local query fails;
when the branch exists add the worktree; otherwise prompt, aborting with exit 1
unless the answer is `y`/`yes`, then `git checkout -b`, `git push -u origin`
(each non-zero propagating) and finally `git worktree add`. -/
def workspace_add (repo_str branch : String) (cfg : AppConfig) (env : GitEnv) :
    Option CmdOutcome :=
  match RepoIdentifier.parse repo_str with
  | none => none
  | some repo =>
      let ws_path := workspace_path repo branch cfg
      if env.repoRootExists then
        let ops := [GitOp.fetchAllOp]
        if env.fetchRet ≠ 0 then some ⟨env.fetchRet, ops⟩
        else
          if env.showRefLocalRet = 0 then
            some ⟨env.worktreeAddRet,
                  ops ++ [GitOp.showRefLocalOp branch, GitOp.worktreeAddOp ws_path branch]⟩
          else if env.showRefRemoteRet = 0 then
            some ⟨env.worktreeAddRet,
                  ops ++ [GitOp.showRefLocalOp branch, GitOp.showRefRemoteOp branch,
                          GitOp.worktreeAddOp ws_path branch]⟩
          else
            let ops := ops ++ [GitOp.showRefLocalOp branch, GitOp.showRefRemoteOp branch]
            if normalized_answer env == "y" || normalized_answer env == "yes" then
              let ops := ops ++ [GitOp.checkoutBOp branch]
              if env.checkoutBRet ≠ 0 then some ⟨env.checkoutBRet, ops⟩
              else
                let ops := ops ++ [GitOp.pushUpstreamOp branch]
                if env.pushRet ≠ 0 then some ⟨env.pushRet, ops⟩
                else some ⟨env.worktreeAddRet, ops ++ [GitOp.worktreeAddOp ws_path branch]⟩
            else some ⟨1, ops⟩
      else some ⟨1, []⟩

/-- Result of `workspace_go`: exit code, trace, the `cd` path printed on
success, and whether the editor was launched. -/
structure GoOutcome where
  exit : Int
  ops : List GitOp
  cdPath : Option Path
  editorLaunched : Bool
deriving DecidableEq, Repr

/-- `workspace_go`: when the worktree path is missing, delegate to
`workspace_add` and propagate its non-zero exit; otherwise (and after a
successful add) print the `cd` path, launch the editor with discarded output,
and return 0. -/
def workspace_go (repo_str branch : String) (cfg : AppConfig) (env : GitEnv) :
    Option GoOutcome :=
  match RepoIdentifier.parse repo_str with
  | none => none
  | some repo =>
      let ws_path := workspace_path repo branch cfg
      if env.wsPathExists then some ⟨0, [], some ws_path, true⟩
      else
        match workspace_add repo_str branch cfg env with
        | none => none
        | some r =>
            if r.exit ≠ 0 then some ⟨r.exit, r.ops, none, false⟩
            else some ⟨0, r.ops, some ws_path, true⟩

/-- `_iter_worktrees`: run `git worktree list --porcelain` captured; a
non-zero return code yields the empty sequence; otherwise keep, for each
stdout line starting with `"worktree "`, the text after the first space. -/
def _iter_worktrees (env : GitEnv) : List String :=
  if env.worktreeListRet ≠ 0 then []
  else
    env.worktreeListOut.filterMap (fun line =>
      if "worktree ".toList.isPrefixOf line.toList then
        some (String.mk (line.toList.drop 9))
      else none)

/-- Result of `workspace_list`: exit code, trace, and the rows displayed
(`none` when the command failed before listing). -/
structure ListOutcome where
  exit : Int
  ops : List GitOp
  rows : Option (List String)
deriving DecidableEq, Repr

/-- `workspace_list`: parse the repo (exception → `none`); exit 1 if the repo
root is missing; otherwise display `_iter_worktrees` and return 0. -/
def workspace_list (repo_str : String) (cfg : AppConfig) (env : GitEnv) :
    Option ListOutcome :=
  match RepoIdentifier.parse repo_str with
  | none => none
  | some _ =>
      if env.repoRootExists then
        some ⟨0, [GitOp.worktreeListOp], some (_iter_worktrees env)⟩
      else some ⟨1, [], none⟩

/-! ## Supporting lemmas: strings -/

theorem string_toList_append (s t : String) : (s ++ t).toList = s.toList ++ t.toList :=
  rfl

theorem string_mk_toList (s : String) : String.mk s.toList = s :=
  rfl

theorem splitFirstChar_spec (sep : Char) :
    ∀ (l a b : List Char), splitFirstChar sep l = some (a, b) →
      a ++ sep :: b = l ∧ sep ∉ a := by
  intro l
  induction l with
  | nil => intro a b h; simp [splitFirstChar] at h
  | cons c cs ih =>
    intro a b h
    by_cases hc : c = sep
    · have hval : splitFirstChar sep (c :: cs) = some ([], cs) := by
        simp [splitFirstChar, hc]
      rw [hval, Option.some.injEq, Prod.mk.injEq] at h
      obtain ⟨ha, hb⟩ := h
      subst ha; subst hb
      exact ⟨by simp [hc], by simp⟩
    · simp only [splitFirstChar, if_neg hc] at h
      cases hsub : splitFirstChar sep cs with
      | none => rw [hsub] at h; simp at h
      | some p =>
        obtain ⟨a', b'⟩ := p
        rw [hsub] at h
        simp only [Option.map_some', Option.some.injEq, Prod.mk.injEq] at h
        obtain ⟨ha, hb⟩ := h
        subst ha; subst hb
        obtain ⟨ih1, ih2⟩ := ih a' b' hsub
        refine ⟨by rw [List.cons_append, ih1], ?_⟩
        simp only [List.mem_cons, not_or]
        exact ⟨fun e => hc e.symm, ih2⟩

theorem splitOnChar_ne_nil (sep : Char) (l : List Char) : splitOnChar sep l ≠ [] := by
  cases l with
  | nil => simp [splitOnChar]
  | cons c cs =>
    by_cases h : c = sep
    · simp [splitOnChar, h]
    · simp only [splitOnChar, if_neg h]
      cases splitOnChar sep cs <;> simp

theorem splitOnChar_append (sep : Char) :
    ∀ (l₁ l₂ : List Char), sep ∉ l₁ →
      splitOnChar sep (l₁ ++ sep :: l₂) = l₁ :: splitOnChar sep l₂ := by
  intro l₁
  induction l₁ with
  | nil => intro l₂ _; simp [splitOnChar]
  | cons c cs ih =>
    intro l₂ h
    simp only [List.mem_cons, not_or] at h
    have hc : c ≠ sep := fun e => h.1 e.symm
    simp only [List.cons_append, splitOnChar, if_neg hc, List.append_eq]
    rw [ih l₂ h.2]

/-! ## Supporting lemmas: dictionaries -/

theorem dictLookup_dictSet_self (k : String) (v : Json) (d : Jdict) :
    dictLookup k (dictSet k v d) = some v := by
  induction d with
  | nil => simp [dictSet, dictLookup]
  | cons p rest ih =>
    obtain ⟨k', v'⟩ := p
    by_cases h : k' = k
    · subst h; simp [dictSet, dictLookup]
    · simp [dictSet, dictLookup, h, ih]

theorem dictLookup_dictSet_ne (k k' : String) (v : Json) (d : Jdict) (h : k' ≠ k) :
    dictLookup k (dictSet k' v d) = dictLookup k d := by
  induction d with
  | nil => simp [dictSet, dictLookup, h]
  | cons p rest ih =>
    obtain ⟨k₀, v₀⟩ := p
    by_cases h0 : k₀ = k'
    · subst h0; simp [dictSet, dictLookup, h]
    · simp [dictSet, dictLookup, h0, ih]

theorem dictSet_of_not_mem (k : String) (v : Json) (d : Jdict)
    (h : k ∉ d.map Prod.fst) : dictSet k v d = d ++ [(k, v)] := by
  induction d with
  | nil => simp [dictSet]
  | cons p rest ih =>
    obtain ⟨k₀, v₀⟩ := p
    simp only [List.map_cons, List.mem_cons, not_or] at h
    have hne : ¬(k₀ = k) := fun e => h.1 e.symm
    simp only [dictSet, if_neg hne, List.cons_append, List.cons.injEq, true_and]
    exact ih h.2

theorem dictUpdate_of_disjoint (o : Jdict) :
    ∀ d : Jdict, (o.map Prod.fst).Nodup →
      (∀ x ∈ o.map Prod.fst, x ∉ d.map Prod.fst) → dictUpdate d o = d ++ o := by
  induction o with
  | nil => intro d _ _; simp [dictUpdate]
  | cons p rest ih =>
    intro d hnd hdisj
    obtain ⟨k, v⟩ := p
    simp only [List.map_cons, List.nodup_cons] at hnd
    have hdisj' : ∀ x ∈ rest.map Prod.fst, x ∉ (d ++ [(k, v)]).map Prod.fst := by
      intro x hx
      simp only [List.map_append, List.mem_append, not_or, List.map_cons,
        List.map_nil, List.mem_singleton]
      exact ⟨hdisj x (by simp [hx]), fun e => hnd.1 (e ▸ hx)⟩
    have hstep : dictUpdate d ((k, v) :: rest) = dictUpdate (dictSet k v d) rest := rfl
    rw [hstep, dictSet_of_not_mem k v d (hdisj k (by simp)),
      ih (d ++ [(k, v)]) hnd.2 hdisj']
    simp

/-- An object value with distinct keys at its top level (what `json.loads`
produces); non-objects satisfy it trivially. -/
def topNodup : Json → Prop
  | Json.obj o => (o.map Prod.fst).Nodup
  | _ => True

theorem mergeStep_lookup_ne (acc : Jdict) (k' : String) (v : Json) (k : String)
    (h : k' ≠ k) : dictLookup k (mergeStep acc (k', v)) = dictLookup k acc := by
  cases v with
  | obj o =>
    simp only [mergeStep]
    cases hl : dictLookup k' acc with
    | none => exact dictLookup_dictSet_ne k k' _ acc h
    | some w => cases w <;> simp [dictLookup_dictSet_ne k k' _ acc h]
  | str s => exact dictLookup_dictSet_ne k k' _ acc h
  | num n => exact dictLookup_dictSet_ne k k' _ acc h
  | boolVal b => exact dictLookup_dictSet_ne k k' _ acc h
  | null => exact dictLookup_dictSet_ne k k' _ acc h

theorem mergeStep_lookup_self (acc : Jdict) (k : String) (v : Json)
    (hacc : dictLookup k acc = none) (htop : topNodup v) :
    dictLookup k (mergeStep acc (k, v)) = some v := by
  cases v with
  | obj o =>
    simp only [mergeStep, hacc]
    rw [dictLookup_dictSet_self]
    rw [dictUpdate_of_disjoint o [] htop (by simp)]
    simp
  | str s => exact dictLookup_dictSet_self k _ acc
  | num n => exact dictLookup_dictSet_self k _ acc
  | boolVal b => exact dictLookup_dictSet_self k _ acc
  | null => exact dictLookup_dictSet_self k _ acc

theorem foldl_mergeStep_skip (k : String) (data : Jdict) :
    ∀ acc : Jdict, (∀ p ∈ data, p.1 ≠ k) →
      dictLookup k (data.foldl mergeStep acc) = dictLookup k acc := by
  induction data with
  | nil => intro acc _; rfl
  | cons p rest ih =>
    intro acc hne
    have h1 : dictLookup k (rest.foldl mergeStep (mergeStep acc p)) =
        dictLookup k (mergeStep acc p) :=
      ih (mergeStep acc p) (fun q hq => hne q (List.mem_cons_of_mem _ hq))
    obtain ⟨k₀, v₀⟩ := p
    calc dictLookup k (((k₀, v₀) :: rest).foldl mergeStep acc)
        = dictLookup k (mergeStep acc (k₀, v₀)) := h1
      _ = dictLookup k acc :=
          mergeStep_lookup_ne acc k₀ v₀ k (hne (k₀, v₀) (List.mem_cons_self _ _))

theorem foldl_mergeStep_lookup (k : String) (v : Json) (data : Jdict) :
    ∀ acc : Jdict, (data.map Prod.fst).Nodup → topNodup v →
      dictLookup k data = some v → dictLookup k acc = none →
      dictLookup k (data.foldl mergeStep acc) = some v := by
  induction data with
  | nil => intro acc _ _ hl _; simp [dictLookup] at hl
  | cons p rest ih =>
    intro acc hnd htop hl hacc
    obtain ⟨k₀, v₀⟩ := p
    simp only [List.map_cons, List.nodup_cons] at hnd
    by_cases h0 : k₀ = k
    · subst h0
      have hv : v₀ = v := by
        simpa [dictLookup] using hl
      subst hv
      have hrest : ∀ q ∈ rest, q.1 ≠ k₀ := by
        intro q hq e
        exact hnd.1 (e ▸ List.mem_map_of_mem Prod.fst hq)
      have h1 : dictLookup k₀ (rest.foldl mergeStep (mergeStep acc (k₀, v₀))) =
          dictLookup k₀ (mergeStep acc (k₀, v₀)) :=
        foldl_mergeStep_skip k₀ rest (mergeStep acc (k₀, v₀)) hrest
      calc dictLookup k₀ (((k₀, v₀) :: rest).foldl mergeStep acc)
          = dictLookup k₀ (mergeStep acc (k₀, v₀)) := h1
        _ = some v₀ := mergeStep_lookup_self acc k₀ v₀ hacc htop
    · have hl' : dictLookup k rest = some v := by
        simpa [dictLookup, h0] using hl
      have hacc' : dictLookup k (mergeStep acc (k₀, v₀)) = none := by
        rw [mergeStep_lookup_ne acc k₀ v₀ k h0]; exact hacc
      exact ih (mergeStep acc (k₀, v₀)) hnd.2 htop hl' hacc'

theorem dictLookup_default_none (k : String) (hg : k ≠ "globals")
    (hw : k ≠ "workspaces") : dictLookup k DEFAULT_CONFIG = none := by
  simp [DEFAULT_CONFIG, dictLookup, Ne.symm hg, Ne.symm hw]

/-- Loading preserves the binding of any top-level key unknown to the
defaults, verbatim. -/
theorem dictLookup_mergeData (data : Jdict) (k : String) (v : Json)
    (hnd : (data.map Prod.fst).Nodup) (htop : topNodup v)
    (hl : dictLookup k data = some v) (hg : k ≠ "globals")
    (hw : k ≠ "workspaces") : dictLookup k (mergeData data) = some v :=
  foldl_mergeStep_lookup k v data DEFAULT_CONFIG hnd htop hl
    (dictLookup_default_none k hg hw)

/-- Writing a dotted path whose first segment differs from `k` leaves the
binding of `k` untouched. -/
theorem setPath_lookup_ne (doc : Jdict) (parts : List String) (value : Json)
    (out : Jdict) (k : String) (hhead : parts.head? ≠ some k)
    (h : setPath doc parts value = some out) :
    dictLookup k out = dictLookup k doc := by
  match parts with
  | [] =>
    simp only [setPath, Option.some.injEq] at h
    subst h; rfl
  | [last] =>
    have hlast : last ≠ k := by
      intro e; subst e; exact hhead rfl
    simp only [setPath, Option.some.injEq] at h
    subst h
    exact dictLookup_dictSet_ne k last value doc hlast
  | seg :: s2 :: rest =>
    have hseg : seg ≠ k := by
      intro e; subst e; exact hhead rfl
    simp only [setPath] at h
    split at h
    · obtain ⟨sub, hsub, hout⟩ := Option.map_eq_some'.mp h
      subst hout
      exact dictLookup_dictSet_ne k seg _ doc hseg
    · obtain ⟨sub, hsub, hout⟩ := Option.map_eq_some'.mp h
      subst hout
      exact dictLookup_dictSet_ne k seg _ doc hseg
    · exact Option.noConfusion h

/-! ## Concrete fixtures used by witnesses and counterexamples -/

/-- A configuration with an empty `baseDir`, GitHub provider and the default
editor. -/
def cfgEmptyBase : AppConfig := ⟨⟨[], "github"⟩, ⟨"code"⟩⟩

/-- A world where every git invocation succeeds and nothing exists yet. -/
def envAllOk : GitEnv := ⟨false, false, 0, 0, 0, 0, 0, 0, 0, 0, 0, [], none⟩

/-- A world where the repo root exists, the branch is missing locally and on
origin, and the user answers `"n"` at the prompt. -/
def envDecline : GitEnv := ⟨true, false, 0, 0, 0, 0, 1, 1, 0, 0, 0, [], some "n"⟩

/-- A world where the repo root exists, the branch exists locally, and
`git worktree add` fails with exit status 3. -/
def envWtFail : GitEnv := ⟨true, false, 0, 0, 3, 0, 0, 0, 0, 0, 0, [], none⟩

/-- A world where the repo root exists but `git worktree list --porcelain`
fails with exit status 2 (its stdout is ignored). -/
def envListFail : GitEnv := ⟨true, false, 0, 0, 0, 0, 0, 0, 0, 0, 2, ["worktree /a"], none⟩

/-! ## Claim C2 -/

/-- C2 counterexample: the URL form does not round-trip.  `RepoIdentifier.parse`
performs no normalization and splits at the first `/`, giving
`{org: "git@github.com:acme", name: "widget.git"}`; and the legacy
`parse_repo_path`, which does normalize, yields `acme/widge` because Python's
`rstrip(".git")` strips the character set `{., g, i, t}` from the end, eating
the `t` of `widget`. -/
theorem c2_url_form_counterexample :
    RepoIdentifier.parse "git@github.com:acme/widget.git" =
      some ⟨"git@github.com:acme", "widget.git"⟩ ∧
    RepoIdentifier.parse "git@github.com:acme/widget.git" ≠
      some ⟨"acme", "widget"⟩ ∧
    parse_repo_path "git@github.com:acme/widget.git" = some ["acme", "widge"] ∧
    parse_repo_path "git@github.com:acme/widget.git" ≠ some ["acme", "widget"] := by
  exact ⟨rfl, by decide, rfl, by decide⟩

/-- C2 (amended): `parseRepoIdentifier` round-trips the shorthand
(`"acme/widget"` → `{org: "acme", name: "widget"}`); on the full-URL form
`RepoIdentifier.parse` returns `{org: "git@github.com:acme", name:
"widget.git"}` (no normalization), while the legacy `parse_repo_path`
normalizes by replacing `git@`/`:` and stripping trailing `.git`-set
characters and returns `acme/widge`. -/
theorem c2_parse_repo_identifier_forms :
    RepoIdentifier.parse "acme/widget" = some ⟨"acme", "widget"⟩ ∧
    RepoIdentifier.parse "git@github.com:acme/widget.git" =
      some ⟨"git@github.com:acme", "widget.git"⟩ ∧
    parse_repo_path "git@github.com:acme/widget.git" = some ["acme", "widge"] :=
  ⟨rfl, rfl, rfl⟩

/-! ## Claim C3 -/

/-- C3 counterexample: `"acme/widget.js"` is a workspace identifier accepted by
`RepoIdentifier.parse`, yet `setValue("workspaces.acme/widget.js.defaultBranch",
...)` is rejected, because the allow-list pattern `workspaces\.[^.]+\.defaultBranch`
cannot match an identifier containing a dot. -/
theorem c3_dotted_id_rejected :
    RepoIdentifier.parse "acme/widget.js" = some ⟨"acme", "widget.js"⟩ ∧
    _is_valid_config_path "workspaces.acme/widget.js.defaultBranch" = false ∧
    save_config_value "workspaces.acme/widget.js.defaultBranch" "develop"
      DiskConfig.absent = none :=
  ⟨rfl, rfl, rfl⟩

/-- C3 (amended): `setValue` rejects every dotted path matching no allow-listed
pattern (e.g. `globals.unknownKey`), and
`setValue("workspaces." + id + ".defaultBranch", value)` succeeds exactly for
workspace identifiers that are non-empty and contain no `.`; identifiers with a
dot are rejected. -/
theorem c3_allowlist (id p value : String) (disk : DiskConfig)
    (hne : id.toList ≠ []) (hdot : '.' ∉ id.toList)
    (hp : _is_valid_config_path p = false) :
    save_config_value p value disk = none ∧
    _is_valid_config_path "globals.unknownKey" = false ∧
    _is_valid_config_path ("workspaces." ++ id ++ ".defaultBranch") = true := by
  refine ⟨?_, rfl, ?_⟩
  · unfold save_config_value
    rw [hp]
    simp
  · unfold _is_valid_config_path
    have h1 : ("workspaces." ++ id ++ ".defaultBranch").toList =
        "workspaces.".toList ++ id.toList ++ ".defaultBranch".toList := rfl
    have h2 : "workspaces.".toList = "workspaces".toList ++ ['.'] := rfl
    have h3 : ".defaultBranch".toList = '.' :: "defaultBranch".toList := rfl
    have htl : ("workspaces." ++ id ++ ".defaultBranch").toList =
        "workspaces".toList ++ '.' :: (id.toList ++ '.' :: "defaultBranch".toList) := by
      rw [h1, h2, h3]
      simp [List.append_assoc]
    rw [htl, splitOnChar_append '.' _ _ (by decide),
      splitOnChar_append '.' id.toList _ hdot]
    have h4 : splitOnChar '.' "defaultBranch".toList = ["defaultBranch".toList] := rfl
    rw [h4]
    have h5 : ¬ id.toList.isEmpty := by
      cases hid : id.toList with
      | nil => exact absurd hid hne
      | cons c cs => simp
    simp [h5]
    exact Or.inr hne

/-- C3 witness: the amended theorem at `id = "acme/widget"`,
`p = "globals.unknownKey"`. -/
theorem c3_allowlist_witness :
    save_config_value "globals.unknownKey" "x" DiskConfig.absent = none ∧
    _is_valid_config_path "globals.unknownKey" = false ∧
    _is_valid_config_path ("workspaces." ++ "acme/widget" ++ ".defaultBranch") = true :=
  c3_allowlist "acme/widget" "globals.unknownKey" "x" DiskConfig.absent
    (by decide) (by decide) (by decide)

/-! ## Claim C7 -/

/-- C7: configuration load never fails the command: a missing config file
yields the compiled-in defaults, and an unparsable one logs and yields the
compiled-in defaults instead of raising. -/
theorem c7_load_never_fails :
    load_raw_config DiskConfig.absent = DEFAULT_CONFIG ∧
    load_raw_config DiskConfig.unparsable = DEFAULT_CONFIG :=
  ⟨rfl, rfl⟩

/-! ## Claim C8 -/

/-- C8 counterexample: the parser accepts `"acme/"` with an EMPTY name, and
accepts `"a/b/c"`, which contains two separating slashes. -/
theorem c8_degenerate_inputs_accepted :
    RepoIdentifier.parse "acme/" = some ⟨"acme", ""⟩ ∧
    RepoIdentifier.parse "a/b/c" = some ⟨"a", "b/c"⟩ :=
  ⟨rfl, rfl⟩

/-- C8 (amended): `RepoIdentifier.parse` accepts exactly the strings containing
a `/`; for every accepted input the org is the (possibly empty) text before the
first `/`, which itself contains no `/`, and the name is the (possibly empty)
remainder — there is no non-emptiness or single-slash guarantee. -/
theorem c8_parse_shape (s : String) (r : RepoIdentifier)
    (h : RepoIdentifier.parse s = some r) :
    r.org.toList ++ '/' :: r.name.toList = s.toList ∧ '/' ∉ r.org.toList := by
  unfold RepoIdentifier.parse at h
  cases hs : splitFirstChar '/' s.toList with
  | none => rw [hs] at h; exact Option.noConfusion h
  | some p =>
    obtain ⟨o, n⟩ := p
    rw [hs] at h
    simp only [Option.some.injEq] at h
    subst h
    exact splitFirstChar_spec '/' s.toList o n hs

/-- C8 witness: the amended theorem at `"acme/widget"`. -/
theorem c8_parse_shape_witness :
    "acme".toList ++ '/' :: "widget".toList = "acme/widget".toList ∧
    '/' ∉ "acme".toList :=
  c8_parse_shape "acme/widget" ⟨"acme", "widget"⟩ rfl

/-! ## Claim C9 -/

/-- C9: the branch-to-worktree-path mapping is not injective: the distinct
branches `"feature/x"` and `"feature-x"` map to the same worktree path for the
same repository, since `branch_to_suffix` folds `/` into `-`. -/
theorem c9_branch_path_collision :
    ("feature/x" : String) ≠ "feature-x" ∧
    workspace_path ⟨"acme", "widget"⟩ "feature/x" cfgEmptyBase =
      workspace_path ⟨"acme", "widget"⟩ "feature-x" cfgEmptyBase :=
  ⟨by decide, rfl⟩

/-! ## Claim C10 -/

/-- C10: when the repo root exists but `git worktree list --porcelain` exits
non-zero, `workspace list` swallows the failure: it returns exit code 0 and
displays an empty sequence of worktree paths. -/
theorem c10_list_swallows_failure (repo_str : String) (repo : RepoIdentifier)
    (cfg : AppConfig) (env : GitEnv)
    (hparse : RepoIdentifier.parse repo_str = some repo)
    (hroot : env.repoRootExists = true) (hfail : env.worktreeListRet ≠ 0) :
    workspace_list repo_str cfg env = some ⟨0, [GitOp.worktreeListOp], some []⟩ := by
  simp only [workspace_list, hparse, hroot, if_true]
  simp [_iter_worktrees, hfail]

/-- C10 witness: at `"acme/widget"` in a world where the listing fails with
status 2. -/
theorem c10_list_swallows_failure_witness :
    workspace_list "acme/widget" cfgEmptyBase envListFail =
      some ⟨0, [GitOp.worktreeListOp], some []⟩ :=
  c10_list_swallows_failure "acme/widget" ⟨"acme", "widget"⟩ cfgEmptyBase
    envListFail rfl rfl (by decide)

/-! ## Claim C1 -/

/-- C1 counterexample: cloning `"acme/widget"` into an empty `baseDir` with all
git operations succeeding reports the SIBLING path `{baseDir}/acme/widget-main`,
not the nested `{baseDir}/acme/widget/widget-main` the claim states; and the
persisted configuration afterwards is the unchanged input document, whose
`workspaces` section is still empty — no `WorkspaceRecord` for `acme/widget`
is created (`run_gitx_clone` contains no config write). -/
theorem c1_clone_counterexample :
    run_gitx_clone "acme/widget" cfgEmptyBase envAllOk DEFAULT_CONFIG =
      some ⟨0,
        [GitOp.cloneOp "https://github.com/acme/widget.git" ["acme", "widget"],
         GitOp.detachOp,
         GitOp.worktreeAddOp ["acme", "widget-main"] "main"],
        some ["acme", "widget-main"], DEFAULT_CONFIG⟩ ∧
    (some ["acme", "widget-main"] : Option Path) ≠
      some ["acme", "widget", "widget-main"] ∧
    dictLookup "workspaces" DEFAULT_CONFIG = some (Json.obj []) :=
  ⟨rfl, by decide, rfl⟩

/-- C1 (amended): cloning `"acme/widget"` invokes clone, then
checkout --detach, then worktree add for branch `main`, in that order; on
success the reported worktree path equals `{baseDir}/acme/widget-main`
(a sibling of the repo root `{baseDir}/acme/widget`); and the workflow leaves
the persisted configuration unchanged — no `WorkspaceRecord` is created. -/
theorem c1_clone_workflow (cfg : AppConfig) (env : GitEnv) (persisted : Jdict)
    (hroot : env.repoRootExists = false) (hclone : env.cloneRet = 0)
    (hdetach : env.detachRet = 0) (hwt : env.worktreeAddRet = 0)
    (hprov : cfg.workspaces.provider = "github") :
    run_gitx_clone "acme/widget" cfg env persisted =
      some ⟨0,
        [GitOp.cloneOp "https://github.com/acme/widget.git"
           (cfg.workspaces.base_dir ++ ["acme", "widget"]),
         GitOp.detachOp,
         GitOp.worktreeAddOp (cfg.workspaces.base_dir ++ ["acme", "widget-main"]) "main"],
        some (cfg.workspaces.base_dir ++ ["acme", "widget-main"]),
        persisted⟩ := by
  have hurl : build_clone_url "acme/widget" cfg.workspaces.provider =
      some "https://github.com/acme/widget.git" := by
    rw [hprov]
    rfl
  have hpaths : build_clone_paths "acme/widget" cfg =
      some (cfg.workspaces.base_dir ++ ["acme", "widget"],
            cfg.workspaces.base_dir ++ ["acme", "widget-main"]) := rfl
  simp [run_gitx_clone, hurl, hpaths, hroot, hclone, hdetach, hwt]

/-- C1 witness: the amended theorem in a world with empty `baseDir` where
every git operation succeeds. -/
theorem c1_clone_workflow_witness :
    run_gitx_clone "acme/widget" cfgEmptyBase envAllOk DEFAULT_CONFIG =
      some ⟨0,
        [GitOp.cloneOp "https://github.com/acme/widget.git" ["acme", "widget"],
         GitOp.detachOp,
         GitOp.worktreeAddOp ["acme", "widget-main"] "main"],
        some ["acme", "widget-main"], DEFAULT_CONFIG⟩ :=
  c1_clone_workflow cfgEmptyBase envAllOk DEFAULT_CONFIG rfl rfl rfl rfl rfl

/-! ## Claim C5 -/

/-- C5: when the requested branch is absent both locally and on origin and the
prompt is answered `"n"`, the ensure-worktree workflow (and `workspace go`
delegating to it) returns exit code 1; the trace shows only the fetch and the
two captured ref queries — no worktree is added and no branch is created or
pushed. -/
theorem c5_decline_creates_nothing (cfg : AppConfig) (env : GitEnv)
    (hroot : env.repoRootExists = true) (hfetch : env.fetchRet = 0)
    (hlocal : env.showRefLocalRet ≠ 0) (hremote : env.showRefRemoteRet ≠ 0)
    (hans : normalized_answer env = "n") (hws : env.wsPathExists = false) :
    workspace_add "acme/widget" "feature/x" cfg env =
      some ⟨1, [GitOp.fetchAllOp, GitOp.showRefLocalOp "feature/x",
                GitOp.showRefRemoteOp "feature/x"]⟩ ∧
    workspace_go "acme/widget" "feature/x" cfg env =
      some ⟨1, [GitOp.fetchAllOp, GitOp.showRefLocalOp "feature/x",
                GitOp.showRefRemoteOp "feature/x"], none, false⟩ ∧
    ([GitOp.fetchAllOp, GitOp.showRefLocalOp "feature/x",
      GitOp.showRefRemoteOp "feature/x"].all (fun op => !op.isMutating)) = true := by
  have hparse : RepoIdentifier.parse "acme/widget" = some ⟨"acme", "widget"⟩ := rfl
  have hadd : workspace_add "acme/widget" "feature/x" cfg env =
      some ⟨1, [GitOp.fetchAllOp, GitOp.showRefLocalOp "feature/x",
                GitOp.showRefRemoteOp "feature/x"]⟩ := by
    simp [workspace_add, hparse, hroot, hfetch, hlocal, hremote, hans]
  refine ⟨hadd, ?_, by decide⟩
  simp [workspace_go, hparse, hws, hadd]

/-- C5 witness: at `"acme/widget" "feature/x"` in a world where the branch is
missing on both sides and the user types `"n"`. -/
theorem c5_decline_creates_nothing_witness :
    workspace_add "acme/widget" "feature/x" cfgEmptyBase envDecline =
      some ⟨1, [GitOp.fetchAllOp, GitOp.showRefLocalOp "feature/x",
                GitOp.showRefRemoteOp "feature/x"]⟩ ∧
    workspace_go "acme/widget" "feature/x" cfgEmptyBase envDecline =
      some ⟨1, [GitOp.fetchAllOp, GitOp.showRefLocalOp "feature/x",
                GitOp.showRefRemoteOp "feature/x"], none, false⟩ ∧
    ([GitOp.fetchAllOp, GitOp.showRefLocalOp "feature/x",
      GitOp.showRefRemoteOp "feature/x"].all (fun op => !op.isMutating)) = true :=
  c5_decline_creates_nothing cfgEmptyBase envDecline rfl rfl (by decide)
    (by decide) rfl rfl

/-! ## Claim C6 -/

/-- C6: an unknown top-level key present in the on-disk document survives a
load followed by the save performed by a successful `setValue` on an unrelated
key: the written document still binds the key to the identical value. -/
theorem c6_unknown_key_roundtrip (data : Jdict) (k : String) (v : Json)
    (p value : String) (out : Jdict)
    (hnd : (data.map Prod.fst).Nodup) (htop : topNodup v)
    (hk : dictLookup k data = some v)
    (hg : k ≠ "globals") (hw : k ≠ "workspaces")
    (hhead : ((splitOnChar '.' p.toList).map String.mk).head? ≠ some k)
    (hsave : save_config_value p value (DiskConfig.parsed data) = some out) :
    dictLookup k out = some v := by
  unfold save_config_value at hsave
  by_cases hv : _is_valid_config_path p = true
  · rw [if_pos hv] at hsave
    have hpres := setPath_lookup_ne (load_raw_config (DiskConfig.parsed data))
      ((splitOnChar '.' p.toList).map String.mk) (Json.str value) out k hhead hsave
    rw [hpres]
    exact dictLookup_mergeData data k v hnd htop hk hg hw
  · rw [if_neg hv] at hsave
    exact Option.noConfusion hsave

/-- On-disk document for the C6 witness: a single unrecognized top-level
key. -/
def c6Data : Jdict := [("custom", Json.str "hello")]

/-- Document written by `setValue("globals.editor", "vim")` after loading
`c6Data`: defaults merged, editor updated, unknown key preserved. -/
def c6Out : Jdict :=
  [("globals", Json.obj
      [("baseDir", Json.str "${HOME}/sources/workspaces"),
       ("defaultProvider", Json.str "github"),
       ("editor", Json.str "vim")]),
   ("workspaces", Json.obj []),
   ("custom", Json.str "hello")]

/-- C6 witness: the unknown key `"custom"` survives
`setValue("globals.editor", "vim")` verbatim. -/
theorem c6_unknown_key_roundtrip_witness :
    dictLookup "custom" c6Out = some (Json.str "hello") :=
  c6_unknown_key_roundtrip c6Data "custom" (Json.str "hello") "globals.editor"
    "vim" c6Out (by decide) trivial rfl (by decide) (by decide) (by decide) rfl

/-! ## Claim C4 -/

/-- A run short-circuits on mutating failures: any mutating git operation in
the trace that the environment makes fail is the last operation performed, and
its return code is the run's exit code. -/
def ShortCircuits (env : GitEnv) (exit : Int) (ops : List GitOp) : Prop :=
  ∀ i : Fin ops.length, (ops.get i).isMutating = true →
    env.retOf (ops.get i) ≠ 0 →
    (i : Nat) = ops.length - 1 ∧ exit = env.retOf (ops.get i)

/-- C4: in the clone and ensure-worktree workflows, a non-zero exit status
from any mutating git operation (clone, checkout --detach, worktree add,
branch create, push) stops the workflow at that step — the failing operation
is the last one performed — and its status becomes the workflow's exit
code. -/
theorem c4_mutating_failure_short_circuits :
    (∀ (target : String) (cfg : AppConfig) (env : GitEnv) (persisted : Jdict)
        (e : Int) (l : List GitOp) (rep : Option Path) (per : Jdict),
      run_gitx_clone target cfg env persisted = some ⟨e, l, rep, per⟩ →
      ShortCircuits env e l) ∧
    (∀ (repo_str branch : String) (cfg : AppConfig) (env : GitEnv)
        (e : Int) (l : List GitOp),
      workspace_add repo_str branch cfg env = some ⟨e, l⟩ →
      ShortCircuits env e l) := by
  constructor
  · intro target cfg env persisted e l rep per h
    unfold ShortCircuits
    simp only [run_gitx_clone] at h
    repeat' split at h
    all_goals
      first
      | exact Option.noConfusion h
      | · simp only [Option.some.injEq, CloneOutcome.mk.injEq] at h
          obtain ⟨he, hl, hrep, hper⟩ := h
          subst he; subst hl
          intro i hm hr
          fin_cases i <;> simp_all [GitOp.isMutating, GitEnv.retOf, List.get]
  · intro repo_str branch cfg env e l h
    unfold ShortCircuits
    simp only [workspace_add] at h
    repeat' split at h
    all_goals
      first
      | exact Option.noConfusion h
      | · simp only [Option.some.injEq, CmdOutcome.mk.injEq] at h
          obtain ⟨he, hl⟩ := h
          subst he; subst hl
          intro i hm hr
          fin_cases i <;> simp_all [GitOp.isMutating, GitEnv.retOf, List.get]

/-- C4 witness: `git worktree add` failing with status 3 in the ensure-worktree
workflow is the last operation performed and yields exit 3. -/
theorem c4_mutating_failure_short_circuits_witness :
    ShortCircuits envWtFail 3
      [GitOp.fetchAllOp, GitOp.showRefLocalOp "b",
       GitOp.worktreeAddOp ["acme", "widget", "widget-b"] "b"] :=
  c4_mutating_failure_short_circuits.2 "acme/widget" "b" cfgEmptyBase envWtFail 3
    [GitOp.fetchAllOp, GitOp.showRefLocalOp "b",
     GitOp.worktreeAddOp ["acme", "widget", "widget-b"] "b"] rfl

end Gitx
